import Mathlib

/-!
Shallow embedding of the acquisition-and-placement engine of
`src/main.ts` (a GitHub Action that downloads a tool, optionally
extracts it, and places it either into the shared tool cache or into a
fixed container-safe directory).

External I/O (network download, archive extraction, the shared tool
cache of `@actions/tool-cache`, the private-asset resolver) is modelled
by an oracle environment `Env` fixing each operation's outcome, an
explicit state `St` (filesystem contents, existing directories, cache
entries, event trace, random-name counter), and the engine itself is a
state-threading function translated line by line from `download`,
`findOrDownload` and `run` in `src/main.ts`.
-/

namespace SetupTool

/-- Filesystem paths as lists of components; `path.join` is append. -/
abbrev Path := List String

/-- The four extraction operations of `@actions/tool-cache` that
`getExtract` can select. -/
inductive Extractor
  | extractTar
  | extractZip
  | extract7z
  | extractXar
deriving DecidableEq, Repr

/-- The source type `PkgExtension = "tar.gz" | "zip" | "7z" | "xar"`. -/
inductive PkgExtension
  | targz
  | zip
  | sevenz
  | xar
deriving DecidableEq, Repr

/-- Function `getExtract` from `src/main.ts`: maps a package extension to the
extraction operation (`Extract | null` in the source, hence `Option`;
the switch is total, so no branch yields `null`). -/
def getExtract : PkgExtension → Option Extractor
  | .targz => some .extractTar
  | .zip => some .extractZip
  | .sevenz => some .extract7z
  | .xar => some .extractXar

/-- The `interface ToolConfig` from `src/main.ts` (the tool identity). -/
structure ToolConfig where
  name : String
  version : String
  arch : String
deriving DecidableEq, Repr

/-- The `interface ArchiveConfig` from `src/main.ts`. -/
structure ArchiveConfig where
  url : String
  subdir : Option String
  extract : Option Extractor
deriving DecidableEq, Repr

/-- The `interface ReleaseConfig` from `src/main.ts`. -/
structure ReleaseConfig where
  tool : ToolConfig
  archive : ArchiveConfig
  githubToken : Option String
deriving DecidableEq, Repr

/-- Result of `github.findReleaseAsset`: resolved URL plus optional auth
and headers, exactly the `{ url, auth, headers }` destructured in
`download`. -/
structure AuthInfo where
  url : String
  auth : Option String
  headers : Option (List (String × String))
deriving DecidableEq, Repr

/-- Abstract file/directory contents, tagged by how they were produced. -/
inductive Content
  | downloaded (url : String)
  | extractedFrom (url : String)
  | copiedFromPath (src : Path)
deriving DecidableEq, Repr

/-- Observable calls the engine makes on its collaborators, in order. -/
inductive Event
  | findReleaseAssetEv (url token : String)
  | downloadToolEv (url : String) (dest : Option Path)
      (auth : Option String) (headers : Option (List (String × String)))
  | extractEv (op : Extractor) (archivePath toDir : Path)
  | chmodEv (p : Path)
  | cacheDirEv (src : Path) (name version arch : String)
  | cpSyncEv (src dst : Path)
  | rmSyncEv (p : Path)
  | mkdirEv (p : Path)
deriving DecidableEq, Repr

/-- Oracle environment: the ambient process data and the outcome of each
external operation during one run. -/
structure Env where
  /-- Value of `os.homedir()`. -/
  homedir : Path
  /-- Whether `process.env.CONTAINER_ID != undefined`. -/
  inContainer : Bool
  /-- Stream of values of `Math.random().toString(36).slice(2)`. -/
  rands : Nat → String
  /-- Outcome of `github.findReleaseAsset`, when it is called. -/
  resolveResult : Except String AuthInfo
  /-- Outcome of `tc.downloadTool`. -/
  downloadResult : Except String Unit
  /-- The temp path `tc.downloadTool` picks when `dest` is `undefined`. -/
  tmpDownloadPath : Path
  /-- Outcome of the selected extractor. -/
  extractResult : Except String Unit
  /-- Root under which the shared tool cache stores its entries. -/
  cacheRoot : Path

/-- Mutable world state threaded through the engine. -/
structure St where
  fs : List (Path × Content)
  dirs : List Path
  cache : List (ToolConfig × Path)
  trace : List Event
  randIdx : Nat
deriving DecidableEq, Repr

def St.init : St := ⟨[], [], [], [], 0⟩

/-- Write (or overwrite) the entry at path `p`. -/
def fsSet (fs : List (Path × Content)) (p : Path) (c : Content) :
    List (Path × Content) :=
  (p, c) :: fs.filter (fun e => !(e.1 == p))

/-- Read the entry at path `p`. -/
def fsLookup (fs : List (Path × Content)) (p : Path) : Option Content :=
  (fs.find? (fun e => e.1 == p)).map (·.2)

/-- Model of `fs.rmSync(p, recursive, force)`: drop every entry
at or below `p`. -/
def rmrf (fs : List (Path × Content)) (p : Path) : List (Path × Content) :=
  fs.filter (fun e => !(p.isPrefixOf e.1))

/-- Modelled from the spec: `tc.find(name, version, arch)` is a pure
read of the persisted cache metadata, returning the registered path for
the identity or "not found". -/
def cacheLookup (c : List (ToolConfig × Path)) (t : ToolConfig) : Option Path :=
  (c.find? (fun e => e.1 == t)).map (·.2)

/-- Modelled from the spec: the shared tool cache stores each identity
at a deterministic path keyed by (name, version, architecture). -/
def cachePath (root : Path) (t : ToolConfig) : Path :=
  root ++ [t.name, t.version, t.arch]

/-- Modelled from the spec: `tc.cacheDir(src, name, version, arch)`
copies `src` into the identity's cache slot, registers the entry, and
returns the slot path. -/
def cacheDirOp (env : Env) (t : ToolConfig) (src : Path) (st : St) :
    Path × St :=
  let ret := cachePath env.cacheRoot t
  (ret,
    { st with
      fs := fsSet st.fs ret (.copiedFromPath src)
      cache := (t, ret) :: st.cache.filter (fun e => !(e.1 == t))
      trace := st.trace ++ [Event.cacheDirEv src t.name t.version t.arch] })

/-- The `githubToken ? findReleaseAsset(...) : { url, auth: undefined,
headers: undefined }` step at the top of `download`. -/
def resolveAuth (env : Env) (cfg : ReleaseConfig) :
    Except String AuthInfo × List Event :=
  match cfg.githubToken with
  | some tok => (env.resolveResult, [Event.findReleaseAssetEv cfg.archive.url tok])
  | none => (.ok ⟨cfg.archive.url, none, none⟩, [])

/-- Function `download(releaseConfig)` from `src/main.ts`, translated step by
step. Returns the promised path (or the propagated error, unchanged)
together with the final world state. -/
def download (env : Env) (cfg : ReleaseConfig) (st0 : St) :
    Except String Path × St :=
  let tool := cfg.tool
  -- const { url, auth, headers } = githubToken ? ... : ...
  match resolveAuth env cfg with
  | (res, evs) =>
    let st1 : St := { st0 with trace := st0.trace ++ evs }
    match res with
    | .error e => (.error e, st1)
    | .ok info =>
      -- var dest; var tmpDir; if (inContainer) ... else ...
      let dti : Path × Path × St :=
        if env.inContainer then
          let dest := env.homedir ++ [".local", "bin"]
          let st2 :=
            if st1.dirs.contains dest then st1
            else { st1 with
                    dirs := dest :: st1.dirs
                    trace := st1.trace ++ [Event.mkdirEv dest] }
          (dest, [], st2)
        else
          let tmpDir := env.homedir ++ ["tmp", env.rands st1.randIdx]
          (tmpDir ++ [tool.name], tmpDir,
            { st1 with randIdx := st1.randIdx + 1 })
      match dti with
      | (dest, tmpDir, st2) =>
        match cfg.archive.extract with
        | none =>
          -- if (!extract): directly download executable to `dest`
          let st3 := { st2 with
            trace := st2.trace ++
              [Event.downloadToolEv info.url (some dest) info.auth info.headers] }
          match env.downloadResult with
          | .error e => (.error e, st3)
          | .ok _ =>
            let st4 := { st3 with
              fs := fsSet st3.fs dest (.downloaded info.url)
              trace := st3.trace ++ [Event.chmodEv dest] }
            if env.inContainer then
              -- return path.join(dest, tool.name)
              (.ok (dest ++ [tool.name]), st4)
            else
              -- const ret = await tc.cacheDir(dest, name, version, arch)
              match cacheDirOp env tool dest st4 with
              | (ret, st5) =>
                let st6 := { st5 with
                  fs := rmrf st5.fs tmpDir
                  trace := st5.trace ++ [Event.rmSyncEv tmpDir] }
                (.ok ret, st6)
        | some op =>
          -- download archive and get tool inside it
          let st3 := { st2 with
            trace := st2.trace ++
              [Event.downloadToolEv info.url none info.auth info.headers] }
          match env.downloadResult with
          | .error e => (.error e, st3)
          | .ok _ =>
            let archivePath := env.tmpDownloadPath
            let st4 := { st3 with
              fs := fsSet st3.fs archivePath (.downloaded info.url) }
            let archiveDest := env.homedir ++ ["tmp", env.rands st4.randIdx]
            let st5 := { st4 with randIdx := st4.randIdx + 1 }
            let st6 := { st5 with
              trace := st5.trace ++ [Event.extractEv op archivePath archiveDest] }
            match env.extractResult with
            | .error e => (.error e, st6)
            | .ok _ =>
              let st7 := { st6 with
                fs := fsSet st6.fs archiveDest (.extractedFrom info.url) }
              let releaseFolder :=
                match cfg.archive.subdir with
                | some s => archiveDest ++ [s]
                | none => archiveDest
              if env.inContainer then
                let st8 := { st7 with
                  fs := fsSet st7.fs dest (.copiedFromPath releaseFolder)
                  trace := st7.trace ++ [Event.cpSyncEv releaseFolder dest] }
                let st9 := { st8 with
                  fs := rmrf st8.fs archiveDest
                  trace := st8.trace ++ [Event.rmSyncEv archiveDest] }
                let st10 := { st9 with
                  fs := rmrf st9.fs archivePath
                  trace := st9.trace ++ [Event.rmSyncEv archivePath] }
                (.ok (dest ++ [tool.name]), st10)
              else
                match cacheDirOp env tool releaseFolder st7 with
                | (ret, st8) =>
                  let st9 := { st8 with
                    fs := rmrf st8.fs archiveDest
                    trace := st8.trace ++ [Event.rmSyncEv archiveDest] }
                  let st10 := { st9 with
                    fs := rmrf st9.fs archivePath
                    trace := st9.trace ++ [Event.rmSyncEv archivePath] }
                  (.ok ret, st10)

/-- Function `findOrDownload(releaseConfig)` from `src/main.ts`. -/
def findOrDownload (env : Env) (cfg : ReleaseConfig) (st : St) :
    Except String Path × St :=
  match cacheLookup st.cache cfg.tool with
  | some existingDir => (.ok existingDir, st)
  | none => download env cfg st

/-- Outcome of the top-level `run()`: success with the path added to
`$PATH`, or `core.setFailed` with the caught error. -/
inductive RunResult
  | success (dir : Path)
  | failed (msg : String)
deriving DecidableEq, Repr

/-- Function `run()` from `src/main.ts`, with the configuration already resolved
(input parsing is an external collaborator). -/
def runMain (env : Env) (cfg : ReleaseConfig) (st : St) : RunResult × St :=
  match findOrDownload env cfg st with
  | (.ok dir, st1) => (.success dir, st1)
  | (.error e, st1) => (.failed e, st1)

end SetupTool

namespace SetupTool

/-- Recognizer for extraction events in a trace. -/
def isExtractEv : Event → Bool
  | .extractEv .. => true
  | _ => false

/-- Recognizer for cache-registration events in a trace. -/
def isCacheDirEv : Event → Bool
  | .cacheDirEv .. => true
  | _ => false

/-- Recognizer for recursive-delete events in a trace. -/
def isRmSyncEv : Event → Bool
  | .rmSyncEv _ => true
  | _ => false

/-- Recognizer for private-asset-resolver calls in a trace. -/
def isFindReleaseAssetEv : Event → Bool
  | .findReleaseAssetEv .. => true
  | _ => false

/-- The source path handed to the first placement operation (cache
registration or directory copy) in a trace, if any. -/
def placeSrc? : List Event → Option Path
  | [] => none
  | .cacheDirEv src _ _ _ :: _ => some src
  | .cpSyncEv src _ :: _ => some src
  | _ :: es => placeSrc? es

/-- The arguments of the first `tc.downloadTool` call in a trace. -/
def firstDownloadEv? : List Event →
    Option (String × Option Path × Option String ×
      Option (List (String × String)))
  | [] => none
  | .downloadToolEv u d a h :: _ => some (u, d, a, h)
  | _ :: es => firstDownloadEv? es

/-- The temporary paths one `download` call creates, given the starting
random-name index `k`: the temporary root for a raw cached install, and
the temporary download file plus temporary extraction directory for an
extraction-based install. The fixed-directory raw install creates no
temporaries. -/
def tempPaths (env : Env) (cfg : ReleaseConfig) (k : Nat) : List Path :=
  if env.inContainer then
    match cfg.archive.extract with
    | none => []
    | some _ => [env.tmpDownloadPath, env.homedir ++ ["tmp", env.rands k]]
  else
    match cfg.archive.extract with
    | none => [env.homedir ++ ["tmp", env.rands k]]
    | some _ =>
        [env.tmpDownloadPath, env.homedir ++ ["tmp", env.rands (k + 1)]]

/-- The temporary extraction directory an extraction-based `download`
call uses, given the starting random-name index `k` (in the
non-container mode one random name was already spent on the unused
temporary root). -/
def extractDestOf (env : Env) (k : Nat) : Path :=
  env.homedir ++ ["tmp", env.rands (if env.inContainer then k else k + 1)]

/-- The resolved release folder: the extraction root joined with the
subdirectory when one is configured, else the extraction root itself. -/
def releaseFolderOf (env : Env) (cfg : ReleaseConfig) (k : Nat) : Path :=
  match cfg.archive.subdir with
  | some s => extractDestOf env k ++ [s]
  | none => extractDestOf env k

/-- The download URL actually used: the configured URL, or the one the
private-asset resolver returned when a token is present. -/
def effUrl (env : Env) (cfg : ReleaseConfig) : String :=
  match cfg.githubToken with
  | none => cfg.archive.url
  | some _ =>
    match env.resolveResult with
    | .ok info => info.url
    | .error _ => cfg.archive.url

/-- The content a container-mode `download` call writes at the fixed
destination root, given its starting random-name index `k`. -/
def installedContent (env : Env) (cfg : ReleaseConfig) (k : Nat) : Content :=
  match cfg.archive.extract with
  | none => .downloaded (effUrl env cfg)
  | some _ => .copiedFromPath (releaseFolderOf env cfg k)

/-- Whether `needle` occurs as a contiguous substring of `hay`. -/
def containsStr (hay needle : String) : Bool :=
  (List.range (hay.toList.length + 1)).any
    (fun i => needle.toList.isPrefixOf (hay.toList.drop i))

/-- C4. Extractor selection is total over the four known archive kinds:
`getExtract` returns a non-null operation for each of `tar.gz`, `zip`,
`7z`, `xar`; and when the configured extraction is `none`, `download`
takes the raw-binary path and never invokes any extractor. -/
theorem extractor_totality_raw_path (env : Env) (cfg : ReleaseConfig)
    (st0 : St) (r : Except String Path) (st1 : St)
    (hx : cfg.archive.extract = none) (h0 : st0.trace = [])
    (hd : download env cfg st0 = (r, st1)) :
    (∀ ext, (getExtract ext).isSome = true) ∧
      ∀ e ∈ st1.trace, isExtractEv e = false := by
  refine ⟨fun ext => by cases ext <;> rfl, ?_⟩
  rcases env with ⟨home, ic, rnds, rr, dr, tdp, er, cr⟩
  rcases cfg with ⟨⟨nm, ver, ar⟩, ⟨url, subdir, ext⟩, tok⟩
  simp only at hx
  subst hx
  rcases st0 with ⟨fs0, dirs0, cache0, tr0, k0⟩
  simp only at h0
  subst h0
  cases tok <;> cases ic <;> cases rr <;> cases dr <;>
    simp [download, resolveAuth, cacheDirOp, cachePath] at hd <;>
    (try split at hd) <;>
    (obtain ⟨hr, hs⟩ := hd
     subst hs
     simp [isExtractEv])

/-- Closed instance of `extractor_totality_raw_path`. -/
theorem extractor_totality_raw_path_witness :
    (∀ ext, (getExtract ext).isSome = true) ∧
      ∀ e ∈ (download
          ⟨["h"], false, fun _ => "r", .ok ⟨"u", none, none⟩, .ok (),
            ["t", "dl"], .ok (), ["c"]⟩
          ⟨⟨"foo", "1.0", "x64"⟩, ⟨"u", none, none⟩, none⟩ St.init).2.trace,
        isExtractEv e = false :=
  extractor_totality_raw_path
    ⟨["h"], false, fun _ => "r", .ok ⟨"u", none, none⟩, .ok (),
      ["t", "dl"], .ok (), ["c"]⟩
    ⟨⟨"foo", "1.0", "x64"⟩, ⟨"u", none, none⟩, none⟩ St.init
    (download
      ⟨["h"], false, fun _ => "r", .ok ⟨"u", none, none⟩, .ok (),
        ["t", "dl"], .ok (), ["c"]⟩
      ⟨⟨"foo", "1.0", "x64"⟩, ⟨"u", none, none⟩, none⟩ St.init).1
    (download
      ⟨["h"], false, fun _ => "r", .ok ⟨"u", none, none⟩, .ok (),
        ["t", "dl"], .ok (), ["c"]⟩
      ⟨⟨"foo", "1.0", "x64"⟩, ⟨"u", none, none⟩, none⟩ St.init).2
    rfl rfl rfl

end SetupTool

namespace SetupTool

set_option maxHeartbeats 1600000 in
/-- C10. When no credential is supplied, the private-asset resolver is
never invoked, and the download uses exactly the configured URL with no
auth token and no extra headers. -/
theorem no_token_no_resolver (env : Env) (cfg : ReleaseConfig)
    (st0 : St) (r : Except String Path) (st1 : St)
    (h0 : st0.trace = []) (htok : cfg.githubToken = none)
    (hd : download env cfg st0 = (r, st1)) :
    (∀ e ∈ st1.trace, isFindReleaseAssetEv e = false) ∧
      ∀ u d a h, firstDownloadEv? st1.trace = some (u, d, a, h) →
        u = cfg.archive.url ∧ a = none ∧ h = none := by
  rcases env with ⟨home, ic, rnds, rr, dr, tdp, er, cr⟩
  rcases cfg with ⟨⟨nm, ver, ar⟩, ⟨url, subdir, ext⟩, tok⟩
  simp only at htok
  subst htok
  rcases st0 with ⟨fs0, dirs0, cache0, tr0, k0⟩
  simp only at h0
  subst h0
  cases ic <;> cases ext <;> cases dr <;> cases er <;> cases subdir <;>
    simp [download, resolveAuth, cacheDirOp, cachePath] at hd <;>
    (try split at hd) <;>
    (obtain ⟨hr, hs⟩ := hd
     subst hs
     simp [isFindReleaseAssetEv, firstDownloadEv?]) <;>
    (try (intros
          subst_vars
          simp))

/-- Closed instance of `no_token_no_resolver`. -/
theorem no_token_no_resolver_witness :
    (∀ e ∈ (download
        ⟨["h"], false, fun _ => "r", .ok ⟨"u", none, none⟩, .ok (),
          ["t", "dl"], .ok (), ["c"]⟩
        ⟨⟨"foo", "1.0", "x64"⟩, ⟨"u", none, some .extractTar⟩, none⟩
        St.init).2.trace,
      isFindReleaseAssetEv e = false) ∧
      ∀ u d a h, firstDownloadEv? (download
          ⟨["h"], false, fun _ => "r", .ok ⟨"u", none, none⟩, .ok (),
            ["t", "dl"], .ok (), ["c"]⟩
          ⟨⟨"foo", "1.0", "x64"⟩, ⟨"u", none, some .extractTar⟩, none⟩
          St.init).2.trace = some (u, d, a, h) →
        u = "u" ∧ a = none ∧ h = none :=
  no_token_no_resolver
    ⟨["h"], false, fun _ => "r", .ok ⟨"u", none, none⟩, .ok (),
      ["t", "dl"], .ok (), ["c"]⟩
    ⟨⟨"foo", "1.0", "x64"⟩, ⟨"u", none, some .extractTar⟩, none⟩
    St.init
    (download
      ⟨["h"], false, fun _ => "r", .ok ⟨"u", none, none⟩, .ok (),
        ["t", "dl"], .ok (), ["c"]⟩
      ⟨⟨"foo", "1.0", "x64"⟩, ⟨"u", none, some .extractTar⟩, none⟩
      St.init).1
    (download
      ⟨["h"], false, fun _ => "r", .ok ⟨"u", none, none⟩, .ok (),
        ["t", "dl"], .ok (), ["c"]⟩
      ⟨⟨"foo", "1.0", "x64"⟩, ⟨"u", none, some .extractTar⟩, none⟩
      St.init).2
    rfl rfl rfl

end SetupTool

namespace SetupTool

/-- Concrete oracle environment used for the concrete-input theorems:
home `h`, random names all `r`, every external operation succeeding,
temp download path `t/dl`, cache root `c`. -/
def sampleEnv (ic : Bool) : Env :=
  ⟨["h"], ic, fun _ => "r", .ok ⟨"u", none, none⟩, .ok (), ["t", "dl"],
    .ok (), ["c"]⟩

/-- Concrete raw-binary (no extraction) release configuration. -/
def sampleRawCfg : ReleaseConfig :=
  ⟨⟨"foo", "1.0", "x64"⟩, ⟨"u", none, none⟩, none⟩

/-- C5 (failing input). In the fixed-directory (container) raw-binary
path, `download` passes the destination root itself — not
`<destinationRoot>/<toolName>` — as the target of `tc.downloadTool`,
chmods the root, and then returns `<destinationRoot>/<toolName>`, a
path nothing was downloaded to; no cache registration occurs. -/
theorem container_raw_download_target :
    download (sampleEnv true) sampleRawCfg St.init =
      (.ok ["h", ".local", "bin", "foo"],
        ⟨[(["h", ".local", "bin"], .downloaded "u")],
         [["h", ".local", "bin"]], [],
         [.mkdirEv ["h", ".local", "bin"],
          .downloadToolEv "u" (some ["h", ".local", "bin"]) none none,
          .chmodEv ["h", ".local", "bin"]], 0⟩) ∧
      (["h", ".local", "bin"] : Path) ≠ ["h", ".local", "bin", "foo"] :=
  ⟨rfl, by decide⟩

/-- C6 (failing input). In the cached-install raw-binary path,
`download` passes the downloaded file's path `<tmpRoot>/<toolName>` —
not the destination root `<tmpRoot>` — to `tc.cacheDir`. -/
theorem cached_raw_registers_file_path :
    download (sampleEnv false) sampleRawCfg St.init =
      (.ok ["c", "foo", "1.0", "x64"],
        ⟨[(["c", "foo", "1.0", "x64"],
            .copiedFromPath ["h", "tmp", "r", "foo"])],
         [],
         [(⟨"foo", "1.0", "x64"⟩, ["c", "foo", "1.0", "x64"])],
         [.downloadToolEv "u" (some ["h", "tmp", "r", "foo"]) none none,
          .chmodEv ["h", "tmp", "r", "foo"],
          .cacheDirEv ["h", "tmp", "r", "foo"] "foo" "1.0" "x64",
          .rmSyncEv ["h", "tmp", "r"]], 1⟩) ∧
      (["h", "tmp", "r", "foo"] : Path) ≠ ["h", "tmp", "r"] :=
  ⟨rfl, by decide⟩

end SetupTool

namespace SetupTool

/-- Concrete extraction-based release configuration (tar.gz archive,
contents under `pkg/bin`). -/
def sampleExtCfg : ReleaseConfig :=
  ⟨⟨"foo", "1.0", "x64"⟩, ⟨"u", some "pkg/bin", some .extractTar⟩, none⟩

/-- Oracle environment in which the extractor fails (corrupt archive). -/
def envExtFail : Env := { sampleEnv false with extractResult := .error "bad" }

/-- C1 (counterexample). When extraction fails, `download` propagates
the error but the temporary download file it created still exists:
there is no cleanup on the failure path. -/
theorem cleanup_on_failure_cex :
    (download envExtFail sampleExtCfg St.init).1 = .error "bad" ∧
      fsLookup (download envExtFail sampleExtCfg St.init).2.fs ["t", "dl"] =
        some (.downloaded "u") :=
  ⟨rfl, rfl⟩

set_option maxHeartbeats 1600000 in
/-- C1 (amended). On every successful exit of `download`, every
temporary resource it created (the temporary root of a raw cached
install; the temporary download file and temporary extraction directory
of an extraction-based install) has been deleted before the call
returns; a failure propagates without this cleanup. -/
theorem cleanup_on_success (env : Env) (cfg : ReleaseConfig)
    (st0 : St) (p : Path) (st1 : St)
    (hd : download env cfg st0 = (.ok p, st1)) :
    ∀ e ∈ st1.fs, ∀ t ∈ tempPaths env cfg st0.randIdx,
      t.isPrefixOf e.1 = false := by
  rcases env with ⟨home, ic, rnds, rr, dr, tdp, er, cr⟩
  rcases cfg with ⟨⟨nm, ver, ar⟩, ⟨url, subdir, ext⟩, tok⟩
  rcases st0 with ⟨fs0, dirs0, cache0, tr0, k0⟩
  cases tok <;> cases ic <;> cases ext <;> cases rr <;> cases dr <;>
      cases er <;> cases subdir <;>
    simp [download, resolveAuth, cacheDirOp, cachePath] at hd <;>
    (try split at hd) <;>
    (obtain ⟨hr, hs⟩ := hd
     subst hs
     simp [tempPaths, rmrf, List.mem_filter])

/-- Closed instance of `cleanup_on_success`: the temporary download
file is not a prefix of the one entry the successful run leaves on
disk, its cache slot. -/
theorem cleanup_on_success_witness :
    List.isPrefixOf (["t", "dl"] : Path)
      (cachePath (sampleEnv false).cacheRoot sampleExtCfg.tool) = false :=
  cleanup_on_success (sampleEnv false) sampleExtCfg St.init
    ["c", "foo", "1.0", "x64"]
    (download (sampleEnv false) sampleExtCfg St.init).2 rfl
    (cachePath (sampleEnv false).cacheRoot sampleExtCfg.tool,
      .copiedFromPath ["h", "tmp", "r", "pkg/bin"])
    (by decide) ["t", "dl"] (by decide)

end SetupTool

namespace SetupTool

/-- The events following the first cache registration in a trace. -/
def restAfterCacheDir : List Event → List Event
  | [] => []
  | .cacheDirEv .. :: es => es
  | _ :: es => restAfterCacheDir es

/-- A trace registers the cache exactly once, and everything after the
registration is temporary cleanup (recursive deletes). -/
def cacheThenCleanup (evs : List Event) : Bool :=
  (evs.filter isCacheDirEv).length == 1 &&
    (restAfterCacheDir evs).all isRmSyncEv

set_option maxHeartbeats 1600000 in
/-- C2. The fixed-directory (container) mode never adds an entry to the
shared tool cache — the cache is untouched, so a lookup for the identity
still misses after the run — while every successful cached-install
(non-container) acquisition registers a cache entry for the identity,
as the final step before temporary cleanup, and returns the registered
path. -/
theorem placement_exclusivity (env : Env) (cfg : ReleaseConfig)
    (st0 : St) (r : Except String Path) (st1 : St)
    (h0 : st0.trace = []) (hd : download env cfg st0 = (r, st1)) :
    (env.inContainer = true →
      st1.cache = st0.cache ∧ ∀ e ∈ st1.trace, isCacheDirEv e = false) ∧
    (env.inContainer = false → ∀ p, r = .ok p →
      cacheLookup st1.cache cfg.tool = some p ∧
      cacheThenCleanup st1.trace = true) := by
  rcases env with ⟨home, ic, rnds, rr, dr, tdp, er, cr⟩
  rcases cfg with ⟨⟨nm, ver, ar⟩, ⟨url, subdir, ext⟩, tok⟩
  rcases st0 with ⟨fs0, dirs0, cache0, tr0, k0⟩
  simp only at h0
  subst h0
  cases tok <;> cases ic <;> cases ext <;> cases rr <;> cases dr <;>
      cases er <;> cases subdir <;>
    simp [download, resolveAuth, cacheDirOp, cachePath] at hd <;>
    (try split at hd) <;>
    (obtain ⟨hr, hs⟩ := hd
     subst hs
     subst hr
     simp [cacheLookup, cacheThenCleanup, restAfterCacheDir,
       isCacheDirEv, isRmSyncEv, List.find?])

/-- Closed instance of `placement_exclusivity`. -/
theorem placement_exclusivity_witness :
    ((sampleEnv false).inContainer = true →
      (download (sampleEnv false) sampleExtCfg St.init).2.cache =
          St.init.cache ∧
        ∀ e ∈ (download (sampleEnv false) sampleExtCfg St.init).2.trace,
          isCacheDirEv e = false) ∧
    ((sampleEnv false).inContainer = false → ∀ p,
      (download (sampleEnv false) sampleExtCfg St.init).1 = .ok p →
      cacheLookup (download (sampleEnv false) sampleExtCfg St.init).2.cache
          sampleExtCfg.tool = some p ∧
      cacheThenCleanup
          (download (sampleEnv false) sampleExtCfg St.init).2.trace =
        true) :=
  placement_exclusivity (sampleEnv false) sampleExtCfg St.init
    (download (sampleEnv false) sampleExtCfg St.init).1
    (download (sampleEnv false) sampleExtCfg St.init).2 rfl rfl

end SetupTool

namespace SetupTool

set_option maxHeartbeats 1600000 in
/-- A successful cached-install (non-container) `download` leaves the
returned path registered in the cache under the tool identity. -/
theorem download_cache_registered (env : Env) (cfg : ReleaseConfig)
    (st0 : St) (p : Path) (st1 : St)
    (hic : env.inContainer = false)
    (hd : download env cfg st0 = (.ok p, st1)) :
    cacheLookup st1.cache cfg.tool = some p := by
  rcases env with ⟨home, ic, rnds, rr, dr, tdp, er, cr⟩
  simp only at hic
  subst hic
  rcases cfg with ⟨⟨nm, ver, ar⟩, ⟨url, subdir, ext⟩, tok⟩
  rcases st0 with ⟨fs0, dirs0, cache0, tr0, k0⟩
  cases tok <;> cases ext <;> cases rr <;> cases dr <;>
      cases er <;> cases subdir <;>
    simp [download, resolveAuth, cacheDirOp, cachePath] at hd <;>
    (obtain ⟨hr, hs⟩ := hd
     subst hs
     simp [cacheLookup, cachePath, List.find?, hr])

/-- C3. The orchestration entry point consults the cache lookup first
and, on a hit, returns the cached directory immediately with no network
access (the state, hence the event trace, is unchanged); consequently,
under the cached-install mode, a second call with the same identity
returns the identical path while performing no further I/O. -/
theorem findOrDownload_idempotent (env : Env) (cfg : ReleaseConfig)
    (st : St) :
    (∀ d, cacheLookup st.cache cfg.tool = some d →
      findOrDownload env cfg st = (.ok d, st)) ∧
    (env.inContainer = false → ∀ p st1,
      findOrDownload env cfg st = (.ok p, st1) →
      findOrDownload env cfg st1 = (.ok p, st1)) := by
  constructor
  · intro d h
    simp [findOrDownload, h]
  · intro hic p st1 h
    unfold findOrDownload at h
    cases hcl : cacheLookup st.cache cfg.tool with
    | some d =>
      rw [hcl] at h
      obtain ⟨h1, h2⟩ := Prod.mk.injEq .. ▸ h
      cases h1
      cases h2
      simp [findOrDownload, hcl]
    | none =>
      rw [hcl] at h
      have := download_cache_registered env cfg st p st1 hic h
      simp [findOrDownload, this]

/-- Closed instance of `findOrDownload_idempotent`: after a first
(downloading) call, a second call with the same identity returns the
identical path and leaves the state untouched. -/
theorem findOrDownload_idempotent_witness :
    findOrDownload (sampleEnv false) sampleExtCfg
        (findOrDownload (sampleEnv false) sampleExtCfg St.init).2 =
      (.ok ["c", "foo", "1.0", "x64"],
        (findOrDownload (sampleEnv false) sampleExtCfg St.init).2) :=
  (findOrDownload_idempotent (sampleEnv false) sampleExtCfg St.init).2
    rfl ["c", "foo", "1.0", "x64"]
    (findOrDownload (sampleEnv false) sampleExtCfg St.init).2 rfl

end SetupTool

namespace SetupTool

/-- Oracle environment in which the network download fails. -/
def envDlFail : Env := { sampleEnv false with downloadResult := .error "boom" }

/-- C7 (counterexample). A download failure reaches the top-level entry
point as the raw error of the failing primitive: no typed error kind is
attached and no context naming the step or the identity is added — the
surfaced message does not even mention the tool name. -/
theorem error_context_cex :
    (runMain envDlFail sampleRawCfg St.init).1 = .failed "boom" ∧
      containsStr "boom" sampleRawCfg.tool.name = false :=
  ⟨rfl, by decide⟩

set_option maxHeartbeats 1600000 in
/-- C7 (amended). Every failure of the acquisition engine — in asset
resolution, download, or extraction — propagates to the top-level entry
point unchanged: `run` reports exactly the error value raised by the
failing primitive, with no wrapping and no added context. -/
theorem errors_propagate_unchanged (env : Env) (cfg : ReleaseConfig)
    (st : St) (e : String)
    (hmiss : cacheLookup st.cache cfg.tool = none)
    (hst :
      ((∃ tok, cfg.githubToken = some tok) ∧
          env.resolveResult = .error e) ∨
        ((cfg.githubToken = none ∨ ∃ i, env.resolveResult = .ok i) ∧
          env.downloadResult = .error e) ∨
        ((cfg.githubToken = none ∨ ∃ i, env.resolveResult = .ok i) ∧
          env.downloadResult = .ok () ∧
          (∃ op, cfg.archive.extract = some op) ∧
          env.extractResult = .error e)) :
    (runMain env cfg st).1 = .failed e := by
  rcases env with ⟨home, ic, rnds, rr, dr, tdp, er, cr⟩
  rcases cfg with ⟨⟨nm, ver, ar⟩, ⟨url, subdir, ext⟩, tok⟩
  dsimp only at hst hmiss
  simp only [runMain, findOrDownload, hmiss]
  rcases hst with ⟨⟨tok', htok⟩, hrr⟩ | ⟨hok, hdr⟩ | ⟨hok, hdr, ⟨op, hext⟩, her⟩
  · subst htok
    cases ic <;> simp [download, resolveAuth, hrr]
  · cases tok with
    | none =>
      cases ic <;> cases ext <;> simp [download, resolveAuth, hdr]
    | some t =>
      rcases hok with hok | ⟨i, hok⟩
      · simp at hok
      · cases ic <;> cases ext <;> simp [download, resolveAuth, hok, hdr]
  · subst hext
    cases tok with
    | none =>
      cases ic <;> cases subdir <;> simp [download, resolveAuth, hdr, her]
    | some t =>
      rcases hok with hok | ⟨i, hok⟩
      · simp at hok
      · cases ic <;> cases subdir <;>
          simp [download, resolveAuth, hok, hdr, her]

/-- Closed instance of `errors_propagate_unchanged`. -/
theorem errors_propagate_unchanged_witness :
    (runMain envDlFail sampleExtCfg St.init).1 = .failed "boom" :=
  errors_propagate_unchanged envDlFail sampleExtCfg St.init "boom" rfl
    (Or.inr (Or.inl ⟨Or.inl rfl, rfl⟩))

end SetupTool

namespace SetupTool

set_option maxHeartbeats 1600000 in
/-- C8. In every successful extraction-based acquisition, the source
folder handed to the placement operation (cache registration or copy to
the fixed directory) is exactly the extraction root joined with the
configured subdirectory when one is present, and the extraction root
itself otherwise. -/
theorem subdirectory_resolution (env : Env) (cfg : ReleaseConfig)
    (st0 : St) (op : Extractor) (p : Path) (st1 : St)
    (h0 : st0.trace = []) (hx : cfg.archive.extract = some op)
    (hd : download env cfg st0 = (.ok p, st1)) :
    placeSrc? st1.trace = some (releaseFolderOf env cfg st0.randIdx) := by
  rcases env with ⟨home, ic, rnds, rr, dr, tdp, er, cr⟩
  rcases cfg with ⟨⟨nm, ver, ar⟩, ⟨url, subdir, ext⟩, tok⟩
  simp only at hx
  subst hx
  rcases st0 with ⟨fs0, dirs0, cache0, tr0, k0⟩
  simp only at h0
  subst h0
  cases tok <;> cases ic <;> cases rr <;> cases dr <;> cases er <;>
      cases subdir <;>
    simp [download, resolveAuth, cacheDirOp, cachePath] at hd <;>
    (try split at hd) <;>
    (obtain ⟨hr, hs⟩ := hd
     subst hs
     simp [placeSrc?, releaseFolderOf, extractDestOf])

/-- Closed instance of `subdirectory_resolution`. -/
theorem subdirectory_resolution_witness :
    placeSrc? (download (sampleEnv false) sampleExtCfg St.init).2.trace =
      some (releaseFolderOf (sampleEnv false) sampleExtCfg
        St.init.randIdx) :=
  subdirectory_resolution (sampleEnv false) sampleExtCfg St.init
    .extractTar ["c", "foo", "1.0", "x64"]
    (download (sampleEnv false) sampleExtCfg St.init).2 rfl rfl rfl

end SetupTool

namespace SetupTool

/-- Writing an entry makes it the one read back at that path. -/
theorem fsLookup_fsSet (fs : List (Path × Content)) (p : Path)
    (c : Content) : fsLookup (fsSet fs p c) p = some c := by
  simp [fsLookup, fsSet, List.find?]

/-- A recursive delete below `q` leaves reads at paths not under `q`
unchanged. -/
theorem fsLookup_rmrf_ne (fs : List (Path × Content)) (q p : Path)
    (h : q.isPrefixOf p = false) :
    fsLookup (rmrf fs q) p = fsLookup fs p := by
  induction fs with
  | nil => rfl
  | cons e es ih =>
    by_cases he : e.1 = p
    · subst he
      simp [rmrf, fsLookup, List.find?, h]
    · have hb : (e.1 == p) = false := by simp [he]
      by_cases hq : q.isPrefixOf e.1
      · simpa [rmrf, fsLookup, List.find?, hq, hb] using ih
      · simp only [Bool.not_eq_true] at hq
        simpa [rmrf, fsLookup, List.find?, hq, hb] using ih

/-- Prefix testing cancels a common left part. -/
theorem append_isPrefixOf_append (a b c : List String) :
    (a ++ b).isPrefixOf (a ++ c) = b.isPrefixOf c := by
  induction a with
  | nil => rfl
  | cons x xs ih => simp [List.isPrefixOf, ih]

/-- A fresh temporary directory under `<home>/tmp` is never a prefix of
the fixed destination `<home>/.local/bin`. -/
theorem tmp_not_prefix_local (home : Path) (r : String) :
    (home ++ ["tmp", r]).isPrefixOf (home ++ [".local", "bin"]) = false := by
  rw [append_isPrefixOf_append]
  have h1 : ("tmp" == ".local") = false := by decide
  simp [List.isPrefixOf, h1]

set_option maxHeartbeats 1600000 in
/-- In container (fixed-directory) mode, a successful `download` returns
`<home>/.local/bin/<toolName>` and leaves at the destination root
`<home>/.local/bin` exactly the content this run produced. -/
theorem download_container_install (env : Env) (cfg : ReleaseConfig)
    (st0 : St) (p : Path) (st1 : St)
    (hic : env.inContainer = true)
    (hnp : env.tmpDownloadPath.isPrefixOf
      (env.homedir ++ [".local", "bin"]) = false)
    (hd : download env cfg st0 = (.ok p, st1)) :
    p = env.homedir ++ [".local", "bin", cfg.tool.name] ∧
      fsLookup st1.fs (env.homedir ++ [".local", "bin"]) =
        some (installedContent env cfg st0.randIdx) := by
  rcases env with ⟨home, ic, rnds, rr, dr, tdp, er, cr⟩
  simp only at hic hnp
  subst hic
  rcases cfg with ⟨⟨nm, ver, ar⟩, ⟨url, subdir, ext⟩, tok⟩
  rcases st0 with ⟨fs0, dirs0, cache0, tr0, k0⟩
  cases tok <;> cases ext <;> cases rr <;> cases dr <;> cases er <;>
      cases subdir <;>
    simp [download, resolveAuth] at hd <;>
    (try split at hd) <;>
    (obtain ⟨hr, hs⟩ := hd
     subst hs
     refine ⟨by simp [hr], ?_⟩
     simp [installedContent, effUrl, releaseFolderOf, extractDestOf,
       fsLookup_rmrf_ne _ _ _ hnp,
       fsLookup_rmrf_ne _ _ _ (tmp_not_prefix_local home _),
       fsLookup_fsSet])

/-- C9. Under the fixed-directory (container) mode, the returned path
depends only on the tool name and the home directory — two runs whose
identities differ only in version and/or architecture return equal
paths — and the second run's installed content overwrites the first's
at the shared destination root. -/
theorem fixed_dir_version_independent (env : Env)
    (cfg1 cfg2 : ReleaseConfig) (st0 : St) (p1 p2 : Path) (st1 st2 : St)
    (hic : env.inContainer = true)
    (hname : cfg1.tool.name = cfg2.tool.name)
    (hnp : env.tmpDownloadPath.isPrefixOf
      (env.homedir ++ [".local", "bin"]) = false)
    (h1 : download env cfg1 st0 = (.ok p1, st1))
    (h2 : download env cfg2 st1 = (.ok p2, st2)) :
    p1 = p2 ∧
      p2 = env.homedir ++ [".local", "bin", cfg2.tool.name] ∧
      fsLookup st2.fs (env.homedir ++ [".local", "bin"]) =
        some (installedContent env cfg2 st1.randIdx) := by
  obtain ⟨hp1, _⟩ := download_container_install env cfg1 st0 p1 st1 hic hnp h1
  obtain ⟨hp2, hc2⟩ :=
    download_container_install env cfg2 st1 p2 st2 hic hnp h2
  exact ⟨by rw [hp1, hp2, hname], hp2, hc2⟩

/-- Second raw-binary configuration: same tool name as `sampleRawCfg`
but different version, architecture and URL. -/
def sampleRawCfg2 : ReleaseConfig :=
  ⟨⟨"foo", "2.0", "arm64"⟩, ⟨"u2", none, none⟩, none⟩

/-- Closed instance of `fixed_dir_version_independent`. -/
theorem fixed_dir_version_independent_witness :
    ((["h", ".local", "bin", "foo"] : Path) = ["h", ".local", "bin", "foo"]) ∧
      (["h", ".local", "bin", "foo"] : Path) =
        (sampleEnv true).homedir ++
          [".local", "bin", sampleRawCfg2.tool.name] ∧
      fsLookup (download (sampleEnv true) sampleRawCfg2
            (download (sampleEnv true) sampleRawCfg St.init).2).2.fs
          ((sampleEnv true).homedir ++ [".local", "bin"]) =
        some (installedContent (sampleEnv true) sampleRawCfg2
          (download (sampleEnv true) sampleRawCfg St.init).2.randIdx) :=
  fixed_dir_version_independent (sampleEnv true) sampleRawCfg sampleRawCfg2
    St.init ["h", ".local", "bin", "foo"] ["h", ".local", "bin", "foo"]
    (download (sampleEnv true) sampleRawCfg St.init).2
    (download (sampleEnv true) sampleRawCfg2
      (download (sampleEnv true) sampleRawCfg St.init).2).2
    rfl rfl (by decide) rfl rfl

end SetupTool
